import Mathlib

/-!  Shallow embedding of loopy/kernel/array.py: the array-axis
implementation-tag model, the stride normalizer
(convert_computed_to_fixed_dim_tags), the tag parser and printer, the
declaration planner (ArrayBase.decl_info) and the access planner
(get_access_info), together with theorems settling the specification
claims against this code. -/

namespace LoopyArray

/-! ### Symbolic expressions

Modelled from the spec: the expression layer (spec section 6) is an
external collaborator (pymbolic / loopy.symbolic).  An expression is an
integer constant (a plain Python int), a named kernel parameter, or an
arithmetic node produced by the Python operators that the embedded code
applies to expressions. -/

inductive Expr where
  | const : Int → Expr
  | var : String → Expr
  | add : Expr → Expr → Expr
  | mul : Expr → Expr → Expr
  | neg : Expr → Expr
  | floordiv : Expr → Expr → Expr
  deriving DecidableEq, Repr

/-- Python multiplication as the embedded code sees it: int * int stays a
plain int; pymbolic folds multiplication by 0 and 1 (its mul hooks return
0 when a constant factor is zero and the other operand when it is one),
and otherwise builds a product node. -/
def pyMul : Expr → Expr → Expr
  | .const a, .const b => .const (a * b)
  | .const a, e => if a = 0 then .const 0 else if a = 1 then e else .mul (.const a) e
  | e, .const a => if a = 0 then .const 0 else if a = 1 then e else .mul e (.const a)
  | a, b => .mul a b

/-- Python addition: int + int stays int; pymbolic folds addition of 0,
otherwise builds a sum node. -/
def pyAdd : Expr → Expr → Expr
  | .const a, .const b => .const (a + b)
  | .const a, e => if a = 0 then e else .add (.const a) e
  | e, .const a => if a = 0 then e else .add e (.const a)
  | a, b => .add a b

/-- Python unary minus, folding constants (Python negates ints directly). -/
def pyNeg : Expr → Expr
  | .const a => .const (-a)
  | e => .neg e

/-! ### Array dimension tags (lines 36-119) -/

/-- The closed variant type of array dimension implementation tags:
FixedStrideArrayDimTag (line 46), ComputedStrideArrayDimTag (line 74),
SeparateArrayArrayDimTag (line 105), VectorArrayDimTag (line 113).
The order field of a computed-stride tag is kept as the string the
constructor stored (uppercased, validated by substring containment). -/
inductive ArrayDimImplementationTag where
  | FixedStrideArrayDimTag (stride : Expr) (target_axis : Nat)
  | ComputedStrideArrayDimTag (order : String) (pad_to : Option Expr) (target_axis : Nat)
  | SeparateArrayArrayDimTag
  | VectorArrayDimTag
  deriving DecidableEq, Repr

open ArrayDimImplementationTag

/-- Each distinct raise site (and each observable Python-level failure) of
the embedded code gets one constructor.  nonContiguousTargetAxes is the
error the spec taxonomy expects at lines 447-449; the embedding never
produces it (see find_num_target_axes). -/
inductive ArrayError where
  | valueErrorInvalidOrder
  | valueErrorMultipleVectorDims
  | valueErrorConflictingStrides
  | valueErrorInvalidComputedOrder
  | valueErrorInvalidDimTag (s : String)
  | parseFailure (s : String)
  | indexError
  | typeErrorMissingArgument
  | typeErrorNone
  | attributeError (a : String)
  | nameError (a : String)
  | runtimeErrorShapeMismatch (got expected : Nat)
  | runtimeErrorNonConstantAxis (i : Nat)
  | runtimeErrorMisalignedStride (i : Nat)
  | runtimeErrorNonConstantIndex (i : Nat)
  | runtimeErrorUnsupportedTag
  | assertionError
  | zeroDivisionError
  | keyErrorVecType
  | notImplementedMultiAxisOffset
  | nonContiguousTargetAxes
  deriving DecidableEq, Repr

/-- Python floor division (the // operator): int // int folds with floor
semantics (Int.fdiv), int // 0 raises ZeroDivisionError, and division
with a symbolic operand builds an expression node. -/
def pyFloorDiv : Expr → Expr → Except ArrayError Expr
  | .const a, .const b =>
      if b = 0 then .error .zeroDivisionError else .ok (.const (Int.fdiv a b))
  | a, b => .ok (.floordiv a b)

/-- pytools.div_ceil nr dr = -(-nr // dr), an external helper imported at
line 256 of array.py; it raises ZeroDivisionError when nr is an int and
dr the int 0. -/
def pyDivCeil (a b : Expr) : Except ArrayError Expr :=
  match pyFloorDiv (pyNeg a) b with
  | .error e => .error e
  | .ok q => .ok (pyNeg q)


/-! ### String helpers mirroring Python string operations -/

/-- listStartsWith pat cs is true when pat is an initial segment of cs. -/
def listStartsWith : List Char → List Char → Bool
  | [], _ => true
  | _ :: _, [] => false
  | p :: ps, c :: cs => p == c && listStartsWith ps cs

/-- listContainsSub needle cs is Python substring containment
(needle in cs): true when needle occurs contiguously in cs.  The empty
needle is contained in every string, as in Python. -/
def listContainsSub (needle : List Char) : List Char → Bool
  | [] => listStartsWith needle []
  | c :: cs => listStartsWith needle (c :: cs) || listContainsSub needle cs

/-- Python membership test needle in haystack on strings. -/
def pyInStr (needle haystack : String) : Bool :=
  listContainsSub needle.data haystack.data

/-- Python str.upper restricted to ASCII, which Char.toUpper matches. -/
def strUpper (s : String) : String :=
  String.mk (s.data.map Char.toUpper)

/-- ComputedStrideArrayDimTag.__init__ (lines 85-91): uppercase the order,
then require order in "CF" — Python substring containment, so "" and "CF"
pass while any other non-single-letter string fails. -/
def ComputedStrideArrayDimTag.init (order : String) (pad_to : Option Expr)
    (target_axis : Nat) : Except ArrayError ArrayDimImplementationTag :=
  let order := strUpper order
  if pyInStr order "CF" then
    .ok (ComputedStrideArrayDimTag order pad_to target_axis)
  else
    .error .valueErrorInvalidOrder

/-! ### Stride normalizer: convert_computed_to_fixed_dim_tags (lines 177-263) -/

/-- State of the partition loop (lines 189-221): the vector dimension seen
so far and, for each target axis, the index lists of computed-stride and
fixed-stride tags. -/
structure TagPartition where
  vector_dim : Option Nat
  computed_stride_dim_tags : List (List Nat)
  fixed_stride_dim_tags : List (List Nat)
  deriving DecidableEq, Repr

/-- Apply f to entry k of a list of lists; none when k is out of range
(Python raises IndexError on an out-of-range list index). -/
def updateNth (l : List (List Nat)) (k : Nat) (f : List Nat → List Nat) :
    Option (List (List Nat)) :=
  match l, k with
  | [], _ => none
  | x :: xs, 0 => some (f x :: xs)
  | x :: xs, k + 1 => (updateNth xs k f).map (fun ys => x :: ys)

/-- One step of the partition loop of lines 195-219, at index i. -/
def partitionStep (i : Nat) (dt : ArrayDimImplementationTag) (st : TagPartition) :
    Except ArrayError TagPartition :=
  match dt with
  | VectorArrayDimTag =>
      match st.vector_dim with
      | some _ => .error .valueErrorMultipleVectorDims
      | none => .ok ⟨some i, st.computed_stride_dim_tags, st.fixed_stride_dim_tags⟩
  | FixedStrideArrayDimTag _ ta =>
      match updateNth st.fixed_stride_dim_tags ta (fun l => l ++ [i]) with
      | some fixed => .ok ⟨st.vector_dim, st.computed_stride_dim_tags, fixed⟩
      | none => .error .indexError
  | ComputedStrideArrayDimTag ord _ ta =>
      if pyInStr ord "cC" then
        match updateNth st.computed_stride_dim_tags ta (fun l => i :: l) with
        | some comp => .ok ⟨st.vector_dim, comp, st.fixed_stride_dim_tags⟩
        | none => .error .indexError
      else if pyInStr ord "fF" then
        match updateNth st.computed_stride_dim_tags ta (fun l => l ++ [i]) with
        | some comp => .ok ⟨st.vector_dim, comp, st.fixed_stride_dim_tags⟩
        | none => .error .indexError
      else .error .valueErrorInvalidComputedOrder
  | SeparateArrayArrayDimTag => .ok st

/-- The partition loop, carrying the enumeration index. -/
def partitionGo (i : Nat) (tags : List ArrayDimImplementationTag) (st : TagPartition) :
    Except ArrayError TagPartition :=
  match tags with
  | [] => .ok st
  | dt :: rest =>
      match partitionStep i dt st with
      | .error e => .error e
      | .ok st1 => partitionGo (i + 1) rest st1

/-- Lines 189-221: partition the dim tags of an argument into vector,
computed-stride and fixed-stride, per target axis.  C-order computed tags
are prepended (insert at 0, line 208), F-order tags appended (line 210). -/
def partitionDimTags (num_target_axes : Nat) (dim_tags : List ArrayDimImplementationTag) :
    Except ArrayError TagPartition :=
  partitionGo 0 dim_tags
    ⟨none, List.replicate num_target_axes [], List.replicate num_target_axes []⟩

/-- Line 246 reads dim_tags[i] and later its pad_to attribute; the indices
handed to the walk always point at computed-stride tags. -/
def padToOf (dim_tags : List ArrayDimImplementationTag) (i : Nat) : Option Expr :=
  match dim_tags.get? i with
  | some (ComputedStrideArrayDimTag _ p _) => p
  | _ => none

/-- The computed-stride walk of lines 244-259: assign the running stride
to each listed axis as a FixedStrideArrayDimTag (with the constructor
default target_axis = 0, exactly as line 247 does), bail out with the
"not yet normalizable" sentinel (ok none) when shape is None, multiply
the running stride by the axis extent, then apply the padding step
stride_so_far = div_ceil(stride_so_far, pad_to) * stride_so_far — note
the second factor in the source is stride_so_far, not pad_to, and
div_ceil raises ZeroDivisionError when the running stride is an integer
and pad_to the integer 0. -/
def computeStrides (dim_tags : List ArrayDimImplementationTag)
    (shape : Option (List Expr)) :
    List Nat → List ArrayDimImplementationTag → Expr →
      Except ArrayError (Option (List ArrayDimImplementationTag × Expr))
  | [], new_tags, s => .ok (some (new_tags, s))
  | i :: rest, new_tags, s =>
      let new_tags1 := new_tags.set i (FixedStrideArrayDimTag s 0)
      match shape with
      | none => .ok none
      | some sh =>
          match sh.get? i with
          | none => .error .indexError
          | some ext =>
              let s1 := pyMul s ext
              match padToOf dim_tags i with
              | none => computeStrides dim_tags shape rest new_tags1 s1
              | some p =>
                  match pyDivCeil s1 p with
                  | .error e => .error e
                  | .ok q => computeStrides dim_tags shape rest new_tags1 (pyMul q s1)

/-- The per-target-axis loop of lines 227-259, walking the zipped
computed/fixed index lists.  A target axis with both kinds raises the
conflicting-stride error (lines 228-236); a fixed-only axis copies its
tags over, which is a no-op because new_dim_tags starts as a copy of
dim_tags (lines 240-243); a computed axis runs the stride walk. -/
def convertAxes (dim_tags : List ArrayDimImplementationTag)
    (shape : Option (List Expr)) :
    List (List Nat × List Nat) → List ArrayDimImplementationTag →
      Except ArrayError (Option (List ArrayDimImplementationTag))
  | [], new_tags => .ok (some new_tags)
  | (comp, fix) :: rest, new_tags =>
      if comp ≠ [] ∧ fix ≠ [] then .error .valueErrorConflictingStrides
      else if fix ≠ [] then convertAxes dim_tags shape rest new_tags
      else
        match computeStrides dim_tags shape comp new_tags (.const 1) with
        | .error e => .error e
        | .ok none => .ok none
        | .ok (some (new_tags1, _)) => convertAxes dim_tags shape rest new_tags1

/-- convert_computed_to_fixed_dim_tags (lines 177-263).  The name and
num_user_axes parameters of the source are used only in error message
text and not at all, respectively, and are dropped here. -/
def convert_computed_to_fixed_dim_tags (num_target_axes : Nat)
    (shape : Option (List Expr)) (dim_tags : List ArrayDimImplementationTag) :
    Except ArrayError (Option (List ArrayDimImplementationTag)) :=
  match partitionDimTags num_target_axes dim_tags with
  | .error e => .error e
  | .ok st =>
      convertAxes dim_tags shape
        (st.computed_stride_dim_tags.zip st.fixed_stride_dim_tags) dim_tags

/-! ### Tag printer (the __str__ methods) and parser (lines 121-174) -/

/-- Rendering of the digits of a natural number, as Python %d does. -/
def natChars (n : Nat) : List Char := (toString n).data

/-- Rendering of an expression as pymbolic str does on the shapes the
claims use: a constant prints its decimal digits (with a leading minus
when negative, as Python str(int) does), a parameter prints its name,
and compound nodes print with their operator between the operands. -/
def exprChars : Expr → List Char
  | .const i => (toString i).data
  | .var s => s.data
  | .add a b => exprChars a ++ ' ' :: '+' :: ' ' :: exprChars b
  | .mul a b => exprChars a ++ '*' :: exprChars b
  | .neg a => '-' :: exprChars a
  | .floordiv a b => exprChars a ++ ' ' :: '/' :: '/' :: ' ' :: exprChars b

def exprToString (e : Expr) : String := String.mk (exprChars e)

/-- The __str__ methods of the four tag classes: "stride:%s->%d"
(line 68), the order with an optional "(pad=%s)" (lines 93-97), "sep"
(line 107) and "vec" (line 115). -/
def ArrayDimImplementationTag.str : ArrayDimImplementationTag → String
  | FixedStrideArrayDimTag s ta =>
      String.mk ("stride:".data ++ exprChars s ++ '-' :: '>' :: natChars ta)
  | ComputedStrideArrayDimTag ord none _ => ord
  | ComputedStrideArrayDimTag ord (some p) _ =>
      String.mk (ord.data ++ "(pad=".data ++ exprChars p ++ [')'])
  | SeparateArrayArrayDimTag => "sep"
  | VectorArrayDimTag => "vec"

/-- Value of a decimal digit character. -/
def digitVal (c : Char) : Nat := c.toNat - 48

def digitsToNat (l : List Char) : Nat :=
  l.foldl (fun a c => a * 10 + digitVal c) 0

def isIdentChar (c : Char) : Bool := c.isAlpha || c == '_'

/-- Modelled from the spec: loopy.symbolic.parse, the expression-layer
collaborator of spec section 6, is not part of src/.  It is modelled to
accept exactly decimal integer literals and plain identifiers, and to
reject every other string — in particular any string containing the
characters - or >, which no expression grammar treats as a literal. -/
def symbolicParseChars (cs : List Char) : Option Expr :=
  if !cs.isEmpty && cs.all Char.isDigit then some (.const (Int.ofNat (digitsToNat cs)))
  else if !cs.isEmpty && cs.all isIdentChar then some (.var (String.mk cs))
  else none

def symbolicParse (s : String) : Option Expr := symbolicParseChars s.data

/-- TARGET_AXIS_RE = "->([0-9])$" (line 122), applied by re.search at
line 141: when the tag ends in the three characters - > digit, strip them
and return the digit as the target axis, else target axis 0 (lines
143-147). -/
def stripTargetAxis (cs : List Char) : List Char × Nat :=
  match cs.reverse with
  | d :: '>' :: '-' :: rest =>
      if d.isDigit then (rest.reverse, digitVal d) else (cs, 0)
  | _ => (cs, 0)

/-- Longest run of ASCII letters at the front of the list, with the rest. -/
def takeAlpha : List Char → List Char × List Char
  | [] => ([], [])
  | c :: cs =>
      if c.isAlpha then
        let (a, b) := takeAlpha cs
        (c :: a, b)
      else ([], c :: cs)

/-- PADDED_STRIDE_TAG = "^([a-zA-Z]+)\(pad=(.*)\)$" (line 121): a nonempty
letter run, the literal characters ( p a d =, any characters, and a
closing parenthesis at the very end; returns (letters, pad text). -/
def paddedStrideMatch (cs : List Char) : Option (String × String) :=
  match takeAlpha cs with
  | ([], _) => none
  | (letters, rest) =>
      match rest with
      | '(' :: 'p' :: 'a' :: 'd' :: '=' :: rest2 =>
          match rest2.reverse with
          | ')' :: mid => some (String.mk letters, String.mk mid.reverse)
          | _ => none
      | _ => none

/-- parse_array_dim_tag (lines 125-162), on string input (the pass-through
branch for inputs that are already tag objects, lines 126-127, needs no
model).  A tag starting with "stride:" hands the whole remainder — any
"->N" included — to the expression parser and builds a fixed-stride tag
with the default target axis 0 (line 135); only the later branches strip
a target-axis tail.  In the padded branch, the pad expression is parsed
(line 157) before the order letters are validated (line 159). -/
def parse_array_dim_tag (tag : String) : Except ArrayError ArrayDimImplementationTag :=
  if listStartsWith "stride:".data tag.data then
    match symbolicParseChars (tag.data.drop 7) with
    | some e => .ok (FixedStrideArrayDimTag e 0)
    | none => .error (.parseFailure (String.mk (tag.data.drop 7)))
  else if tag = "sep" then .ok SeparateArrayArrayDimTag
  else if tag = "vec" then .ok VectorArrayDimTag
  else
    match stripTargetAxis tag.data with
    | (baseChars, target_axis) =>
        let base := String.mk baseChars
        if base = "c" ∨ base = "C" ∨ base = "f" ∨ base = "F" then
          ComputedStrideArrayDimTag.init base none target_axis
        else
          match paddedStrideMatch baseChars with
          | none => .error (.valueErrorInvalidDimTag base)
          | some (ord, padText) =>
              match symbolicParse padText with
              | none => .error (.parseFailure padText)
              | some pad =>
                  if ord = "c" ∨ ord = "C" ∨ ord = "f" ∨ ord = "F" then
                    ComputedStrideArrayDimTag.init ord (some pad) target_axis
                  else .error (.valueErrorInvalidDimTag base)

/-! ### The target-axis contiguity check of ArrayBase.__init__ (lines 440-454) -/

/-- The set built by lines 442-445: the target axes of the stride-bearing
tags (fixed-stride and computed-stride, the _StrideArrayDimTagBase
subclasses). -/
def strideTargetAxes (tags : List ArrayDimImplementationTag) : Finset Nat :=
  tags.foldl
    (fun s dt =>
      match dt with
      | FixedStrideArrayDimTag _ ta => insert ta s
      | ComputedStrideArrayDimTag _ _ ta => insert ta s
      | _ => s) ∅

/-- Lines 442-454 of ArrayBase.__init__: collect the used target axes and
require them to be exactly 0..len-1.  On violation the source executes
raise ValueError("target axes for variable %s are non-contiguous"
% self.name) — but self.name is evaluated while building the message and
no attribute has been set yet (Record.__init__ only runs at line 475 and
the pytools Record base stores every field there), so Python raises
AttributeError for the missing attribute name; the intended ValueError
is never constructed. -/
def find_num_target_axes (dim_tags : List ArrayDimImplementationTag) :
    Except ArrayError Nat :=
  let target_axes := strideTargetAxes dim_tags
  if target_axes = Finset.range target_axes.card then .ok target_axes.card
  else .error (.attributeError "name")

/-! ### ArrayBase data and the planners (lines 295-746) -/

/-- Element types: a named scalar numpy dtype, or one of the pyopencl
vector types (base type plus lane count). -/
inductive DType where
  | scalar : String → DType
  | vector : String → Nat → DType
  deriving DecidableEq, Repr

/-- The offset attribute: 0, a named argument, or the auto marker. -/
inductive ArrayOffset where
  | zero
  | named : String → ArrayOffset
  | auto
  deriving DecidableEq, Repr

/-- Python truthiness of the offset value as tested at lines 603 and 733
(0 and the empty string are falsy). -/
def ArrayOffset.truthy : ArrayOffset → Bool
  | .zero => false
  | .named s => !s.isEmpty
  | .auto => true

/-- The fields of ArrayBase that decl_info and get_access_info read.  The
loopy.auto shape marker never reaches these planners in any claim and is
not modelled; shape none is Python shape None. -/
structure ArrayBase where
  name : String
  dtype : Option DType
  shape : Option (List Expr)
  dim_tags : Option (List ArrayDimImplementationTag)
  offset : ArrayOffset
  deriving DecidableEq, Repr

/-- Modelled from the spec: the vector-type catalog collaborator
(cl.array.vec.types, spec section 6): lane counts 2, 4, 8, 16 are stored
as-is and a 3-lane vector is stored in 4 lanes; any other count (or a
base type that is already a vector) has no catalog entry, a KeyError. -/
def vecTypeSize (n : Nat) : Option Nat :=
  if n = 2 ∨ n = 4 ∨ n = 8 ∨ n = 16 then some n
  else if n = 3 then some 4 else none

/-- Catalog lookup of the vector type itself (used by decl_info). -/
def vecType (dt : DType) (n : Nat) : Option DType :=
  match dt with
  | .scalar b => (vecTypeSize n).map (fun _ => DType.vector b n)
  | .vector _ _ => none

/-- Loop body of ArrayBase.vector_size (lines 558-568), walking dim_tags
with the axis number.  On a vector tag the source reads self.shape[i]
(TypeError when shape is None, IndexError past its end), requires an int
extent — the failure branch at lines 562-564 formats the undefined local
user_axis and so raises NameError — and returns the itemsize ratio of
the catalog type, i.e. its stored lane count. -/
def vectorSizeGo (a : ArrayBase) : Nat → List ArrayDimImplementationTag →
    Except ArrayError Nat
  | _, [] => .ok 1
  | i, VectorArrayDimTag :: _ =>
      match a.shape with
      | none => .error .typeErrorNone
      | some sh =>
          match sh.get? i with
          | none => .error .indexError
          | some (.const n) =>
              match a.dtype with
              | none => .error .keyErrorVecType
              | some dt =>
                  match n with
                  | .ofNat m =>
                      match vecType dt m with
                      | some _ => .ok ((vecTypeSize m).getD 1)
                      | none => .error .keyErrorVecType
                  | .negSucc _ => .error .keyErrorVecType
          | some _ => .error (.nameError "user_axis")
  | i, _ :: rest => vectorSizeGo a (i + 1) rest

/-- ArrayBase.vector_size (lines 551-570): the stored lane count of the
vector axis, or 1 when there is none.  Iterating dim_tags that are None
is a Python TypeError. -/
def vector_size (a : ArrayBase) : Except ArrayError Nat :=
  match a.dim_tags with
  | none => .error .typeErrorNone
  | some tags => vectorSizeGo a 0 tags

/-- ArrayBase.num_user_axes(require_answer=False) (lines 523-532). -/
def num_user_axes0 (a : ArrayBase) : Option Nat :=
  match a.shape with
  | some sh => some sh.length
  | none =>
      match a.dim_tags with
      | some tags => some tags.length
      | none => none

/-- ArrayBase.num_target_axes (lines 515-521). -/
def ArrayBase.num_target_axes (a : ArrayBase) : Except ArrayError Nat :=
  match a.dim_tags with
  | none => .error .typeErrorNone
  | some tags => .ok (strideTargetAxes tags).card

/-- The metadata record emitted per declaration (loopy.codegen
CLArgumentInfo); the cgen declaration object paired with it is rendered
by the external emitter collaborator and carries the same name, shape,
dtype and writability, so the record is the model of one declaration. -/
structure CLArgumentInfo where
  name : String
  base_name : Option String
  dtype : Option DType
  shape : Option (List (Option Expr))
  strides : Option (List Expr)
  offset_for_name : Option String
  deriving DecidableEq, Repr

/-- gen_decls (lines 582-657), driven by the number of user axes still to
consume (fuel = num_user_axes - user_axis; the base case of lines 590-615
fires when it reaches zero).  The separate-array branch (lines 630-641)
reads the axis extent, requires it to be a known int, and then iterates
for i in xrange(extent) calling gen_decls(name_suffix + "_s%d" % i,
shape, dtype, user_index + (i,)) — four positional arguments for a
five-parameter function (strides is missing), so the first iteration
raises TypeError; with extent 0 the loop body never runs and the branch
yields nothing. -/
def gen_decls (a : ArrayBase) (index_dtype : DType) (vs : Nat) :
    Nat → Nat → String → List (Option Expr) → List Expr → Option DType →
      Except ArrayError (List CLArgumentInfo)
  | 0, _, name_suffix, shape, strides, dtype =>
      let dtype := match dtype with | none => a.dtype | some d => some d
      let full_name := a.name ++ name_suffix
      let main : CLArgumentInfo :=
        ⟨full_name, some a.name, dtype, some shape, some strides, none⟩
      if a.offset.truthy then
        .ok [main, ⟨full_name ++ "_offset", none, some index_dtype, none, none, some full_name⟩]
      else .ok [main]
  | fuel + 1, user_axis, name_suffix, shape, strides, dtype =>
      match a.dim_tags with
      | none => .error .typeErrorNone
      | some tags =>
          match tags.get? user_axis with
          | none => .error .indexError
          | some (FixedStrideArrayDimTag stride _) =>
              match pyFloorDiv stride (.const (vs : Int)) with
              | .error e => .error e
              | .ok q =>
                  match a.shape with
                  | none =>
                      gen_decls a index_dtype vs fuel (user_axis + 1) name_suffix
                        (shape ++ [none]) (strides ++ [q]) dtype
                  | some sh =>
                      match sh.get? user_axis with
                      | none => .error .indexError
                      | some e =>
                          gen_decls a index_dtype vs fuel (user_axis + 1) name_suffix
                            (shape ++ [some e]) (strides ++ [q]) dtype
          | some SeparateArrayArrayDimTag =>
              match a.shape with
              | none => .error .typeErrorNone
              | some sh =>
                  match sh.get? user_axis with
                  | none => .error .indexError
                  | some (.const n) =>
                      if n ≤ 0 then .ok [] else .error .typeErrorMissingArgument
                  | some _ => .error (.runtimeErrorNonConstantAxis user_axis)
          | some VectorArrayDimTag =>
              match a.shape with
              | none => .error .typeErrorNone
              | some sh =>
                  match sh.get? user_axis with
                  | none => .error .indexError
                  | some (.const (.ofNat m)) =>
                      match dtype with
                      | none => .error .keyErrorVecType
                      | some dt =>
                          match vecType dt m with
                          | none => .error .keyErrorVecType
                          | some vdt =>
                              gen_decls a index_dtype vs fuel (user_axis + 1) name_suffix
                                shape strides (some vdt)
                  | some (.const (.negSucc _)) => .error .keyErrorVecType
                  | some _ => .error (.runtimeErrorNonConstantAxis user_axis)
          | some (ComputedStrideArrayDimTag _ _ _) => .error .runtimeErrorUnsupportedTag

/-- ArrayBase.decl_info (lines 572-660): plan the physical declarations
of one array.  The generator is modelled as the list of records it
yields; an exception anywhere surfaces as the error. -/
def decl_info (a : ArrayBase) (index_dtype : DType) :
    Except ArrayError (List CLArgumentInfo) :=
  match vector_size a with
  | .error e => .error e
  | .ok vs =>
      match num_user_axes0 a with
      | none => gen_decls a index_dtype vs 0 0 "" [] [] a.dtype
      | some n => gen_decls a index_dtype vs n 0 "" [] [] a.dtype

/-! ### Access planner: get_access_info (lines 667-746) -/

/-- The AccessInfo record (lines 667-672).  The early-return record of
line 684 carries no array_suffix attribute at all, modelled as none, and
sets vector_index to the integer 0 — elsewhere the absent vector lane is
the Python value None, modelled as Option none. -/
structure AccessInfo where
  array_suffix : Option String
  vector_index : Option Int
  subscripts : List Expr
  deriving DecidableEq, Repr

/-- Replace entry k, or fail like a Python out-of-range assignment. -/
def setNthExpr (l : List Expr) (k : Nat) (e : Expr) : Option (List Expr) :=
  if k < l.length then some (l.set k e) else none

/-- The per-axis loop of get_access_info (lines 699-729), over the zipped
(index, dim_tag) pairs, carrying the axis number, the accumulated name
tail, the vector index and the per-target-axis subscript sums. -/
def accessLoop (evalExpr : Expr → Expr) (vs : Nat) :
    Nat → List (Expr × ArrayDimImplementationTag) → String → Option Int →
      List Expr → Except ArrayError (String × Option Int × List Expr)
  | _, [], suf, vi, subs => .ok (suf, vi, subs)
  | i, (idx, dim_tag) :: rest, suf, vi, subs =>
      match dim_tag with
      | FixedStrideArrayDimTag stride ta =>
          let strideOk :=
            match stride with
            | .const s => s % (vs : Int) == 0
            | _ => true
          if !strideOk then .error (.runtimeErrorMisalignedStride i)
          else
            match pyFloorDiv stride (.const (vs : Int)) with
            | .error e => .error e
            | .ok q =>
                match subs.get? ta with
                | none => .error .indexError
                | some old =>
                    match setNthExpr subs ta (pyAdd old (pyMul q idx)) with
                    | none => .error .indexError
                    | some subs1 => accessLoop evalExpr vs (i + 1) rest suf vi subs1
      | SeparateArrayArrayDimTag =>
          match evalExpr idx with
          | .const n => accessLoop evalExpr vs (i + 1) rest (suf ++ "_s" ++ toString n) vi subs
          | _ => .error (.runtimeErrorNonConstantIndex i)
      | VectorArrayDimTag =>
          match evalExpr idx with
          | .const n =>
              match vi with
              | some _ => .error .assertionError
              | none => accessLoop evalExpr vs (i + 1) rest suf (some n) subs
          | _ => .error (.runtimeErrorNonConstantIndex i)
      | ComputedStrideArrayDimTag _ _ _ => .error .runtimeErrorUnsupportedTag

/-- get_access_info (lines 675-746).  With shape None it returns
AccessInfo(subscripts=index, vector_index=0) at once (lines 683-684):
no rank check, the subscript tuple verbatim, vector_index the int 0 and
no array_suffix field.  Otherwise it checks the subscript arity, runs the
per-axis loop, and folds a truthy offset into target axis 0. -/
def get_access_info (ary : ArrayBase) (index : List Expr) (evalExpr : Expr → Expr) :
    Except ArrayError AccessInfo :=
  match ary.shape with
  | none => .ok ⟨none, some 0, index⟩
  | some sh =>
      if sh.length ≠ index.length then
        .error (.runtimeErrorShapeMismatch index.length sh.length)
      else
        match ary.num_target_axes with
        | .error e => .error e
        | .ok nta =>
            match vector_size ary with
            | .error e => .error e
            | .ok vs =>
                match ary.dim_tags with
                | none => .error .typeErrorNone
                | some tags =>
                    match accessLoop evalExpr vs 0 (index.zip tags) "" none
                        (List.replicate nta (.const 0)) with
                    | .error e => .error e
                    | .ok (suf, vi, subs) =>
                        if ary.offset.truthy then
                          if 1 < nta then .error .notImplementedMultiAxisOffset
                          else
                            let offset_name :=
                              match ary.offset with
                              | .named s => s
                              | _ => ary.name ++ suf ++ "_offset"
                            match subs.get? 0 with
                            | none => .error .indexError
                            | some s0 =>
                                .ok ⟨some suf, vi, subs.set 0 (pyAdd (.var offset_name) s0)⟩
                        else .ok ⟨some suf, vi, subs⟩

/-! ### Predicates used to state the general theorems -/

/-- Entry k of a list of index lists ([] past the end). -/
def getNth (l : List (List Nat)) (k : Nat) : List Nat := l.getD k []

/-- Is dt a fixed-stride tag on target axis t. -/
def isFixedAt (t : Nat) : ArrayDimImplementationTag → Bool
  | FixedStrideArrayDimTag _ ta => ta == t
  | _ => false

/-- Is dt a computed-stride tag on target axis t. -/
def isComputedAt (t : Nat) : ArrayDimImplementationTag → Bool
  | ComputedStrideArrayDimTag _ _ ta => ta == t
  | _ => false

/-- Is dt the vector tag. -/
def isVec : ArrayDimImplementationTag → Bool
  | VectorArrayDimTag => true
  | _ => false

/-- Number of fixed-stride tags on target axis t. -/
def countFixedAt (t : Nat) (tags : List ArrayDimImplementationTag) : Nat :=
  tags.countP (isFixedAt t)

/-- Number of computed-stride tags on target axis t. -/
def countComputedAt (t : Nat) (tags : List ArrayDimImplementationTag) : Nat :=
  tags.countP (isComputedAt t)

/-- Every stride-bearing tag targets an axis below n (the well-formedness
the construction pipeline guarantees before calling the normalizer). -/
def tagTargetAxisLt (n : Nat) : ArrayDimImplementationTag → Bool
  | FixedStrideArrayDimTag _ ta => ta < n
  | ComputedStrideArrayDimTag _ _ ta => ta < n
  | _ => true

/-- A pad value whose folding step cannot raise: absent, or a nonzero
integer constant.  A pad of the integer 0 makes div_ceil raise
ZeroDivisionError on an integer running stride, and a symbolic pad puts
the floor division on the expression objects of the external layer. -/
def padValueOk : Option Expr → Bool
  | none => true
  | some (.const p) => p != 0
  | some _ => false

/-- padValueOk of the pad a tag carries (non-computed tags carry none). -/
def padOk : ArrayDimImplementationTag → Bool
  | ComputedStrideArrayDimTag _ p _ => padValueOk p
  | _ => true

/-- The order string of a computed-stride tag falls in one of the two
branches of lines 207-210 (true of every order the constructor accepts
except "CF", and of non-computed tags vacuously). -/
def orderValid : ArrayDimImplementationTag → Bool
  | ComputedStrideArrayDimTag ord _ _ => pyInStr ord "cC" || pyInStr ord "fF"
  | _ => true

/-! ### List helper lemmas -/

lemma getNth_mem : ∀ (l : List (List Nat)) (k : Nat), k < l.length → getNth l k ∈ l := by
  intro l
  induction l with
  | nil => intro k h; simp at h
  | cons x xs ih =>
      intro k h
      match k with
      | 0 => exact List.mem_cons_self _ _
      | k + 1 => exact List.mem_cons_of_mem _ (ih k (by simpa using h))

lemma getNth_replicate (n t : Nat) : getNth (List.replicate n ([] : List Nat)) t = [] := by
  induction n generalizing t with
  | zero => rfl
  | succ n ih =>
      match t with
      | 0 => rfl
      | t + 1 => exact ih t

lemma get?_replicate_lt {α : Type} (a : α) : ∀ (n m : Nat), m < n →
    (List.replicate n a).get? m = some a := by
  intro n
  induction n with
  | zero => intro m h; simp at h
  | succ n ih =>
      intro m h
      match m with
      | 0 => rfl
      | m + 1 => exact ih m (by omega)

lemma updateNth_spec : ∀ (l : List (List Nat)) (k : Nat) (f : List Nat → List Nat),
    k < l.length →
    ∃ l2, updateNth l k f = some l2 ∧ l2.length = l.length
      ∧ getNth l2 k = f (getNth l k)
      ∧ (∀ t, t ≠ k → getNth l2 t = getNth l t)
      ∧ (∀ m ∈ l2, m ∈ l ∨ m = f (getNth l k)) := by
  intro l
  induction l with
  | nil => intro k f h; simp at h
  | cons x xs ih =>
      intro k f h
      match k with
      | 0 =>
          refine ⟨f x :: xs, rfl, by simp, rfl, ?_, ?_⟩
          · intro t ht
            match t with
            | 0 => exact absurd rfl ht
            | t + 1 => rfl
          · intro m hm
            rcases List.mem_cons.mp hm with h1 | h1
            · right; rw [h1]; rfl
            · left; exact List.mem_cons_of_mem _ h1
      | k + 1 =>
          have hk : k < xs.length := by simpa using h
          obtain ⟨l2, he, hlen, hget, hother, hmem⟩ := ih k f hk
          refine ⟨x :: l2, ?_, by simp [hlen], hget, ?_, ?_⟩
          · simp [updateNth, he]
          · intro t ht
            match t with
            | 0 => rfl
            | t + 1 => exact hother t (fun hh => ht (by rw [hh]))
          · intro m hm
            rcases List.mem_cons.mp hm with h1 | h1
            · left; exact h1 ▸ List.mem_cons_self _ _
            · rcases hmem m h1 with h2 | h2
              · left; exact List.mem_cons_of_mem _ h2
              · right; exact h2

lemma getNth_mem_zip : ∀ (l1 l2 : List (List Nat)) (k : Nat), k < l1.length → k < l2.length →
    (getNth l1 k, getNth l2 k) ∈ l1.zip l2 := by
  intro l1
  induction l1 with
  | nil => intro l2 k h1 h2; simp at h1
  | cons x xs ih =>
      intro l2 k h1 h2
      match l2 with
      | [] => simp at h2
      | y :: ys =>
          match k with
          | 0 => rw [List.zip_cons_cons]; exact List.mem_cons_self _ _
          | k + 1 =>
              rw [List.zip_cons_cons]
              exact List.mem_cons_of_mem _ (ih ys k (by simpa using h1) (by simpa using h2))

lemma mem_zip_index : ∀ (l1 l2 : List (List Nat)) (pr : List Nat × List Nat),
    pr ∈ l1.zip l2 → ∃ k, k < l1.length ∧ k < l2.length
      ∧ pr.1 = getNth l1 k ∧ pr.2 = getNth l2 k := by
  intro l1
  induction l1 with
  | nil => intro l2 pr h; simp at h
  | cons x xs ih =>
      intro l2 pr h
      match l2 with
      | [] => simp at h
      | y :: ys =>
          rw [List.zip_cons_cons] at h
          rcases List.mem_cons.mp h with h1 | h1
          · subst h1
            exact ⟨0, by simp, by simp, rfl, rfl⟩
          · obtain ⟨k, hk1, hk2, hk3, hk4⟩ := ih ys pr h1
            exact ⟨k + 1, by simpa using hk1, by simpa using hk2, hk3, hk4⟩

/-! ### Partition-loop invariants -/

lemma partitionStep_spec (i : Nat) (dt : ArrayDimImplementationTag) (st : TagPartition)
    (hlen : st.fixed_stride_dim_tags.length = st.computed_stride_dim_tags.length)
    (hta : tagTargetAxisLt st.computed_stride_dim_tags.length dt = true)
    (hord : orderValid dt = true)
    (hvec : isVec dt = true → st.vector_dim = none) :
    ∃ st1, partitionStep i dt st = .ok st1
      ∧ st1.computed_stride_dim_tags.length = st.computed_stride_dim_tags.length
      ∧ st1.fixed_stride_dim_tags.length = st.fixed_stride_dim_tags.length
      ∧ (isVec dt = false → st1.vector_dim = st.vector_dim)
      ∧ (∀ t, (getNth st1.fixed_stride_dim_tags t).length
            = (getNth st.fixed_stride_dim_tags t).length + (if isFixedAt t dt then 1 else 0))
      ∧ (∀ t, (getNth st1.computed_stride_dim_tags t).length
            = (getNth st.computed_stride_dim_tags t).length + (if isComputedAt t dt then 1 else 0))
      ∧ (∀ l ∈ st1.computed_stride_dim_tags, ∀ x ∈ l,
            (∃ l0 ∈ st.computed_stride_dim_tags, x ∈ l0) ∨ x = i) := by
  cases dt with
  | FixedStrideArrayDimTag s ta =>
      have hta' : ta < st.fixed_stride_dim_tags.length := by
        rw [hlen]; simpa [tagTargetAxisLt] using hta
      obtain ⟨l2, he, hl, hgk, hgo, _⟩ :=
        updateNth_spec st.fixed_stride_dim_tags ta (fun l => l ++ [i]) hta'
      refine ⟨⟨st.vector_dim, st.computed_stride_dim_tags, l2⟩, ?_, rfl, hl, fun _ => rfl,
        ?_, ?_, ?_⟩
      · simp [partitionStep, he]
      · intro t
        by_cases ht : t = ta
        · subst ht; rw [hgk]; simp [isFixedAt, getNth]
        · rw [hgo t ht]
          have hbe : (ta == t) = false := by
            simp only [beq_eq_false_iff_ne]; exact fun hh => ht hh.symm
          simp [isFixedAt, hbe, getNth]
      · intro t; simp [isComputedAt, getNth]
      · intro l hl x hx; exact Or.inl ⟨l, hl, hx⟩
  | ComputedStrideArrayDimTag ord pad ta =>
      have hta' : ta < st.computed_stride_dim_tags.length := by
        simpa [tagTargetAxisLt] using hta
      by_cases hc : pyInStr ord "cC" = true
      · obtain ⟨l2, he, hl, hgk, hgo, hmem⟩ :=
          updateNth_spec st.computed_stride_dim_tags ta (fun l => i :: l) hta'
        refine ⟨⟨st.vector_dim, l2, st.fixed_stride_dim_tags⟩, ?_, hl, rfl, fun _ => rfl,
          ?_, ?_, ?_⟩
        · simp [partitionStep, hc, he]
        · intro t; simp [isFixedAt, getNth]
        · intro t
          by_cases ht : t = ta
          · subst ht; rw [hgk]; simp [isComputedAt, getNth]
          · rw [hgo t ht]
            have hbe : (ta == t) = false := by
              simp only [beq_eq_false_iff_ne]; exact fun hh => ht hh.symm
            simp [isComputedAt, hbe, getNth]
        · intro l hl x hx
          rcases hmem l hl with h1 | h1
          · exact Or.inl ⟨l, h1, hx⟩
          · rw [h1] at hx
            rcases List.mem_cons.mp hx with h2 | h2
            · exact Or.inr h2
            · exact Or.inl ⟨getNth st.computed_stride_dim_tags ta,
                getNth_mem _ _ hta', h2⟩
      · have hf : pyInStr ord "fF" = true := by
          have := hord
          simp only [orderValid, Bool.or_eq_true] at this
          tauto
        obtain ⟨l2, he, hl, hgk, hgo, hmem⟩ :=
          updateNth_spec st.computed_stride_dim_tags ta (fun l => l ++ [i]) hta'
        refine ⟨⟨st.vector_dim, l2, st.fixed_stride_dim_tags⟩, ?_, hl, rfl, fun _ => rfl,
          ?_, ?_, ?_⟩
        · simp [partitionStep, hc, hf, he]
        · intro t; simp [isFixedAt, getNth]
        · intro t
          by_cases ht : t = ta
          · subst ht; rw [hgk]; simp [isComputedAt, getNth]
          · rw [hgo t ht]
            have hbe : (ta == t) = false := by
              simp only [beq_eq_false_iff_ne]; exact fun hh => ht hh.symm
            simp [isComputedAt, hbe, getNth]
        · intro l hl x hx
          rcases hmem l hl with h1 | h1
          · exact Or.inl ⟨l, h1, hx⟩
          · rw [h1] at hx
            rcases List.mem_append.mp hx with h2 | h2
            · exact Or.inl ⟨getNth st.computed_stride_dim_tags ta,
                getNth_mem _ _ hta', h2⟩
            · exact Or.inr (by simpa using h2)
  | SeparateArrayArrayDimTag =>
      exact ⟨st, rfl, rfl, rfl, fun _ => rfl,
        fun t => by simp [isFixedAt], fun t => by simp [isComputedAt],
        fun l hl x hx => Or.inl ⟨l, hl, hx⟩⟩
  | VectorArrayDimTag =>
      have h := hvec rfl
      refine ⟨⟨some i, st.computed_stride_dim_tags, st.fixed_stride_dim_tags⟩, ?_, rfl, rfl,
        ?_, fun t => by simp [isFixedAt], fun t => by simp [isComputedAt],
        fun l hl x hx => Or.inl ⟨l, hl, hx⟩⟩
      · simp [partitionStep, h]
      · intro hh; simp [isVec] at hh

lemma partitionGo_spec : ∀ (tags : List ArrayDimImplementationTag) (i : Nat) (st : TagPartition),
    st.fixed_stride_dim_tags.length = st.computed_stride_dim_tags.length →
    (∀ dt ∈ tags, tagTargetAxisLt st.computed_stride_dim_tags.length dt = true) →
    (∀ dt ∈ tags, orderValid dt = true) →
    (st.vector_dim = none ∨ tags.countP isVec = 0) →
    tags.countP isVec ≤ 1 →
    ∃ st2, partitionGo i tags st = .ok st2
      ∧ st2.computed_stride_dim_tags.length = st.computed_stride_dim_tags.length
      ∧ st2.fixed_stride_dim_tags.length = st.fixed_stride_dim_tags.length
      ∧ (∀ t, (getNth st2.fixed_stride_dim_tags t).length
            = (getNth st.fixed_stride_dim_tags t).length + countFixedAt t tags)
      ∧ (∀ t, (getNth st2.computed_stride_dim_tags t).length
            = (getNth st.computed_stride_dim_tags t).length + countComputedAt t tags)
      ∧ (∀ l ∈ st2.computed_stride_dim_tags, ∀ x ∈ l,
            (∃ l0 ∈ st.computed_stride_dim_tags, x ∈ l0) ∨ x < i + tags.length) := by
  intro tags
  induction tags with
  | nil =>
      intro i st _ _ _ _ _
      exact ⟨st, rfl, rfl, rfl, fun t => by simp [countFixedAt],
        fun t => by simp [countComputedAt], fun l hl x hx => Or.inl ⟨l, hl, hx⟩⟩
  | cons dt rest ih =>
      intro i st hlen hta hord hvd hvc
      have hvec1 : isVec dt = true → st.vector_dim = none := by
        intro hdt
        rcases hvd with h | h
        · exact h
        · rw [List.countP_cons, hdt] at h; simp at h
      obtain ⟨st1, hstep, hclen, hflen, hvd1, hfix1, hcomp1, hmem1⟩ :=
        partitionStep_spec i dt st hlen (hta dt (List.mem_cons_self _ _))
          (hord dt (List.mem_cons_self _ _)) hvec1
      have hlen1 : st1.fixed_stride_dim_tags.length = st1.computed_stride_dim_tags.length := by
        rw [hclen, hflen, hlen]
      have hta1 : ∀ d ∈ rest, tagTargetAxisLt st1.computed_stride_dim_tags.length d = true := by
        rw [hclen]; exact fun d hd => hta d (List.mem_cons_of_mem _ hd)
      have hord1 : ∀ d ∈ rest, orderValid d = true :=
        fun d hd => hord d (List.mem_cons_of_mem _ hd)
      have hvd2 : st1.vector_dim = none ∨ rest.countP isVec = 0 := by
        cases hiv : isVec dt with
        | true =>
            right
            have h1 : List.countP isVec (dt :: rest) = List.countP isVec rest + 1 := by
              rw [List.countP_cons, hiv]
              simp
            omega
        | false =>
            rcases hvd with h | h
            · left; rw [hvd1 hiv, h]
            · right; rw [List.countP_cons, hiv] at h; simpa using h
      have hvc1 : rest.countP isVec ≤ 1 := by
        have h1 : List.countP isVec rest ≤ List.countP isVec (dt :: rest) := by
          rw [List.countP_cons]; omega
        omega
      obtain ⟨st2, hgo, hclen2, hflen2, hfix2, hcomp2, hmem2⟩ :=
        ih (i + 1) st1 hlen1 hta1 hord1 hvd2 hvc1
      refine ⟨st2, ?_, by rw [hclen2, hclen], by rw [hflen2, hflen], ?_, ?_, ?_⟩
      · simp only [partitionGo, hstep, hgo]
      · intro t
        rw [hfix2 t, hfix1 t, countFixedAt, countFixedAt, List.countP_cons]
        omega
      · intro t
        rw [hcomp2 t, hcomp1 t, countComputedAt, countComputedAt, List.countP_cons]
        omega
      · intro l hl x hx
        rw [List.length_cons]
        rcases hmem2 l hl x hx with ⟨l0, hl0, hx0⟩ | hlt
        · rcases hmem1 l0 hl0 x hx0 with h | h
          · exact Or.inl h
          · right; omega
        · right; omega

/-- The partition of lines 189-221 on a well-formed tag list: it succeeds,
each target axis below n holds exactly the indices of its fixed and
computed tags, and every stored index points into dim_tags. -/
lemma partitionDimTags_spec (n : Nat) (dim_tags : List ArrayDimImplementationTag)
    (hta : ∀ dt ∈ dim_tags, tagTargetAxisLt n dt = true)
    (hord : ∀ dt ∈ dim_tags, orderValid dt = true)
    (hvec : dim_tags.countP isVec ≤ 1) :
    ∃ st2, partitionDimTags n dim_tags = .ok st2
      ∧ st2.computed_stride_dim_tags.length = n
      ∧ st2.fixed_stride_dim_tags.length = n
      ∧ (∀ t, (getNth st2.fixed_stride_dim_tags t).length = countFixedAt t dim_tags)
      ∧ (∀ t, (getNth st2.computed_stride_dim_tags t).length = countComputedAt t dim_tags)
      ∧ (∀ l ∈ st2.computed_stride_dim_tags, ∀ x ∈ l, x < dim_tags.length) := by
  have hta' : ∀ dt ∈ dim_tags,
      tagTargetAxisLt (List.replicate n ([] : List Nat)).length dt = true := by
    rw [List.length_replicate]; exact hta
  obtain ⟨st2, hgo, h1, h2, h3, h4, h5⟩ :=
    partitionGo_spec dim_tags 0
      ⟨none, List.replicate n [], List.replicate n []⟩
      (by simp) hta' hord (Or.inl rfl) hvec
  refine ⟨st2, hgo, by simpa using h1, by simpa using h2, ?_, ?_, ?_⟩
  · intro t
    have := h3 t
    rw [getNth_replicate] at this
    simpa using this
  · intro t
    have := h4 t
    rw [getNth_replicate] at this
    simpa using this
  · intro l hl x hx
    rcases h5 l hl x hx with ⟨l0, hl0, hx0⟩ | h
    · rw [List.eq_of_mem_replicate hl0] at hx0
      simp at hx0
    · simpa using h

/-! ### Stride-walk lemmas -/

/-- The per-tag pad condition carries over to padToOf at every index. -/
lemma padToOf_ok (dim_tags : List ArrayDimImplementationTag)
    (h : ∀ dt ∈ dim_tags, padOk dt = true) (x : Nat) :
    padValueOk (padToOf dim_tags x) = true := by
  unfold padToOf
  cases hg : dim_tags.get? x with
  | none => rfl
  | some dt =>
      have hdt := h dt (List.get?_mem hg)
      cases dt with
      | ComputedStrideArrayDimTag ord p ta => simpa [padOk] using hdt
      | FixedStrideArrayDimTag st ta => rfl
      | SeparateArrayArrayDimTag => rfl
      | VectorArrayDimTag => rfl

/-- On integer extents with every pad absent or a nonzero integer, the
stride walk never raises: it finishes with integer strides.  (A pad of 0
makes div_ceil raise ZeroDivisionError, so it is excluded here and the
exclusion is part of the amended C8.) -/
lemma computeStrides_total (dim_tags : List ArrayDimImplementationTag) (sh : List Expr)
    (hshc : ∀ e ∈ sh, ∃ v : Int, e = .const v)
    (hpads : ∀ x, padValueOk (padToOf dim_tags x) = true) :
    ∀ (l : List Nat) (nt : List ArrayDimImplementationTag) (c : Int),
    (∀ x ∈ l, x < sh.length) →
    ∃ nt2 c2, computeStrides dim_tags (some sh) l nt (.const c)
      = .ok (some (nt2, Expr.const c2)) := by
  intro l
  induction l with
  | nil => intro nt c _; exact ⟨nt, c, rfl⟩
  | cons x rest ih =>
      intro nt c h
      have hx : x < sh.length := h x (List.mem_cons_self _ _)
      have hne : sh.get? x ≠ none := by
        intro hnone
        rw [List.get?_eq_none] at hnone
        omega
      obtain ⟨e0, he0⟩ := Option.ne_none_iff_exists'.mp hne
      obtain ⟨v, rfl⟩ := hshc e0 (List.get?_mem he0)
      cases hp : padToOf dim_tags x with
      | none =>
          obtain ⟨nt2, c2, hrec⟩ :=
            ih (nt.set x (FixedStrideArrayDimTag (.const c) 0)) (c * v)
              (fun y hy => h y (List.mem_cons_of_mem _ hy))
          refine ⟨nt2, c2, ?_⟩
          simp only [computeStrides, he0, hp, pyMul]
          exact hrec
      | some p =>
          have hpv := hpads x
          rw [hp] at hpv
          cases p with
          | const q =>
              have hq : q ≠ 0 := by simpa [padValueOk] using hpv
              have hdc : pyDivCeil (.const (c * v)) (.const q)
                  = .ok (.const (-(Int.fdiv (-(c * v)) q))) := by
                simp [pyDivCeil, pyFloorDiv, pyNeg, hq]
              obtain ⟨nt2, c2, hrec⟩ :=
                ih (nt.set x (FixedStrideArrayDimTag (.const c) 0))
                  ((-(Int.fdiv (-(c * v)) q)) * (c * v))
                  (fun y hy => h y (List.mem_cons_of_mem _ hy))
              refine ⟨nt2, c2, ?_⟩
              simp only [computeStrides, he0, hp, pyMul, hdc]
              exact hrec
          | var nm => simp [padValueOk] at hpv
          | add a b => simp [padValueOk] at hpv
          | mul a b => simp [padValueOk] at hpv
          | neg a => simp [padValueOk] at hpv
          | floordiv a b => simp [padValueOk] at hpv

lemma convertAxes_conflict (dim_tags : List ArrayDimImplementationTag) (sh : List Expr)
    (hshc : ∀ e ∈ sh, ∃ v : Int, e = .const v)
    (hpads : ∀ x, padValueOk (padToOf dim_tags x) = true) :
    ∀ (pairs : List (List Nat × List Nat)) (nt : List ArrayDimImplementationTag),
    (∃ pr ∈ pairs, pr.1 ≠ [] ∧ pr.2 ≠ []) →
    (∀ pr ∈ pairs, ∀ x ∈ pr.1, x < sh.length) →
    convertAxes dim_tags (some sh) pairs nt = .error .valueErrorConflictingStrides := by
  intro pairs
  induction pairs with
  | nil => intro nt h _; simp at h
  | cons pr0 rest ih =>
      intro nt hex hbnd
      obtain ⟨c0, f0⟩ := pr0
      by_cases hconf : c0 ≠ [] ∧ f0 ≠ []
      · simp [convertAxes, hconf]
      · have hex' : ∃ pr ∈ rest, pr.1 ≠ [] ∧ pr.2 ≠ [] := by
          rcases hex with ⟨pr, hpr, hc⟩
          rcases List.mem_cons.mp hpr with h1 | h1
          · rw [h1] at hc
            exact absurd hc hconf
          · exact ⟨pr, h1, hc⟩
        by_cases hf : f0 ≠ []
        · rw [convertAxes, if_neg hconf, if_pos hf]
          exact ih nt hex' (fun pr h => hbnd pr (List.mem_cons_of_mem _ h))
        · obtain ⟨nt2, s2, hw⟩ := computeStrides_total dim_tags sh hshc hpads c0 nt 1
            (hbnd (c0, f0) (List.mem_cons_self _ _))
          rw [convertAxes, if_neg hconf, if_neg hf, hw]
          exact ih nt2 hex' (fun pr h => hbnd pr (List.mem_cons_of_mem _ h))

lemma convertAxes_shape_none (dim_tags : List ArrayDimImplementationTag) :
    ∀ (pairs : List (List Nat × List Nat)) (nt : List ArrayDimImplementationTag),
    (∃ pr ∈ pairs, pr.1 ≠ [] ∧ pr.2 = []) →
    (∀ pr ∈ pairs, ¬(pr.1 ≠ [] ∧ pr.2 ≠ [])) →
    convertAxes dim_tags none pairs nt = .ok none := by
  intro pairs
  induction pairs with
  | nil => intro nt h _; simp at h
  | cons pr0 rest ih =>
      intro nt hex hno
      obtain ⟨c0, f0⟩ := pr0
      have hconf : ¬(c0 ≠ [] ∧ f0 ≠ []) := hno _ (List.mem_cons_self _ _)
      by_cases hf : f0 ≠ []
      · have hex' : ∃ pr ∈ rest, pr.1 ≠ [] ∧ pr.2 = [] := by
          rcases hex with ⟨pr, hpr, hc⟩
          rcases List.mem_cons.mp hpr with h1 | h1
          · rw [h1] at hc; exact absurd hc.2 hf
          · exact ⟨pr, h1, hc⟩
        rw [convertAxes, if_neg hconf, if_pos hf]
        exact ih nt hex' (fun pr h => hno pr (List.mem_cons_of_mem _ h))
      · match hc0 : c0 with
        | [] =>
            have hex' : ∃ pr ∈ rest, pr.1 ≠ [] ∧ pr.2 = [] := by
              rcases hex with ⟨pr, hpr, hc⟩
              rcases List.mem_cons.mp hpr with h1 | h1
              · rw [h1] at hc; exact absurd rfl hc.1
              · exact ⟨pr, h1, hc⟩
            rw [convertAxes, if_neg hconf, if_neg hf]
            exact ih nt hex' (fun pr h => hno pr (List.mem_cons_of_mem _ h))
        | x :: xs =>
            rw [convertAxes, if_neg hconf, if_neg hf]
            have hw : computeStrides dim_tags none (x :: xs) nt (.const 1) = .ok none := rfl
            rw [hw]

/-! ### The stride walk on a well-formed computed-axis list -/

lemma computeStrides_spec (dim_tags : List ArrayDimImplementationTag) (sh : List Expr) :
    ∀ (l : List Nat) (nt : List ArrayDimImplementationTag) (c : Int),
    1 ≤ c → l.Nodup →
    (∀ x ∈ l, x < nt.length) →
    (∀ x ∈ l, padToOf dim_tags x = none) →
    (∀ x ∈ l, ∃ e : Int, sh.get? x = some (.const e) ∧ 1 ≤ e) →
    ∃ nt2 c2, computeStrides dim_tags (some sh) l nt (.const c) = .ok (some (nt2, .const c2))
      ∧ c ≤ c2
      ∧ nt2.length = nt.length
      ∧ (∀ x ∈ l, ∃ d : Int, nt2.get? x = some (FixedStrideArrayDimTag (.const d) 0) ∧ c ≤ d)
      ∧ (∀ y, y ∉ l → nt2.get? y = nt.get? y)
      ∧ (∀ x, l.head? = some x → nt2.get? x = some (FixedStrideArrayDimTag (.const c) 0)) := by
  intro l
  induction l with
  | nil =>
      intro nt c hc _ _ _ _
      exact ⟨nt, c, rfl, le_refl c, rfl, by simp, fun y _ => rfl, fun x hx => by simp at hx⟩
  | cons x rest ih =>
      intro nt c hc hnd hbound hpad hsh
      obtain ⟨e, hgete, he⟩ := hsh x (List.mem_cons_self _ _)
      have hxlen : x < nt.length := hbound x (List.mem_cons_self _ _)
      have hnd' : rest.Nodup := (List.nodup_cons.mp hnd).2
      have hxnot : x ∉ rest := (List.nodup_cons.mp hnd).1
      have hce : (1 : Int) ≤ c * e := by nlinarith
      have hcce : c ≤ c * e := by nlinarith
      have hgx : (nt.set x (FixedStrideArrayDimTag (.const c) 0)).get? x
          = some (FixedStrideArrayDimTag (.const c) 0) := by
        rw [List.get?_set_eq]
        have hne : nt.get? x ≠ none := by
          intro hnone
          rw [List.get?_eq_none] at hnone
          omega
        obtain ⟨w, hw⟩ := Option.ne_none_iff_exists'.mp hne
        rw [hw]
        rfl
      obtain ⟨nt2, c2, hrec, hle, hlen2, hmem2, hout2, _⟩ :=
        ih (nt.set x (FixedStrideArrayDimTag (.const c) 0)) (c * e) hce hnd'
          (fun y hy => by rw [List.length_set]; exact hbound y (List.mem_cons_of_mem _ hy))
          (fun y hy => hpad y (List.mem_cons_of_mem _ hy))
          (fun y hy => hsh y (List.mem_cons_of_mem _ hy))
      refine ⟨nt2, c2, ?_, le_trans hcce hle, by rw [hlen2, List.length_set], ?_, ?_, ?_⟩
      · simp only [computeStrides, hgete, hpad x (List.mem_cons_self _ _), pyMul]
        exact hrec
      · intro y hy
        rcases List.mem_cons.mp hy with h1 | h1
        · subst h1
          refine ⟨c, ?_, le_refl c⟩
          rw [hout2 y hxnot, hgx]
        · obtain ⟨d, hd, hcd⟩ := hmem2 y h1
          exact ⟨d, hd, le_trans hcce hcd⟩
      · intro y hy
        have hy1 : y ≠ x := fun hh => hy (hh ▸ List.mem_cons_self _ _)
        have hy2 : y ∉ rest := fun hh => hy (List.mem_cons_of_mem _ hh)
        rw [hout2 y hy2, List.get?_set_ne _ _ (Ne.symm hy1)]
      · intro z hz
        rw [List.head?_cons, Option.some.injEq] at hz
        subst hz
        rw [hout2 x hxnot, hgx]

/-! ### Closed-form partitions of uniform C and F tag lists -/

lemma partitionGo_replicate_C : ∀ (k i : Nat) (acc : List Nat),
    partitionGo i (List.replicate k (ComputedStrideArrayDimTag "C" none 0)) ⟨none, [acc], [[]]⟩
      = .ok ⟨none, [(List.range' i k).reverse ++ acc], [[]]⟩ := by
  intro k
  induction k with
  | zero => intro i acc; rfl
  | succ k ih =>
      intro i acc
      rw [List.replicate_succ]
      have h1 : partitionStep i (ComputedStrideArrayDimTag "C" none 0) ⟨none, [acc], [[]]⟩
          = .ok ⟨none, [i :: acc], [[]]⟩ := rfl
      simp only [partitionGo, h1]
      rw [ih (i + 1) (i :: acc), List.range'_succ]
      simp [List.append_assoc]

lemma partitionGo_replicate_F : ∀ (k i : Nat) (acc : List Nat),
    partitionGo i (List.replicate k (ComputedStrideArrayDimTag "F" none 0)) ⟨none, [acc], [[]]⟩
      = .ok ⟨none, [acc ++ List.range' i k], [[]]⟩ := by
  intro k
  induction k with
  | zero => intro i acc; simp [partitionGo]
  | succ k ih =>
      intro i acc
      rw [List.replicate_succ]
      have h1 : partitionStep i (ComputedStrideArrayDimTag "F" none 0) ⟨none, [acc], [[]]⟩
          = .ok ⟨none, [acc ++ [i]], [[]]⟩ := rfl
      simp only [partitionGo, h1]
      rw [ih (i + 1) (acc ++ [i]), List.range'_succ]
      simp [List.append_assoc]

lemma partition_replicate_C (n : Nat) :
    partitionDimTags 1 (List.replicate n (ComputedStrideArrayDimTag "C" none 0))
      = .ok ⟨none, [(List.range n).reverse], [[]]⟩ := by
  have h := partitionGo_replicate_C n 0 []
  unfold partitionDimTags
  rw [show List.replicate 1 ([] : List Nat) = [[]] from rfl, h, List.range_eq_range']
  simp

lemma partition_replicate_F (n : Nat) :
    partitionDimTags 1 (List.replicate n (ComputedStrideArrayDimTag "F" none 0))
      = .ok ⟨none, [List.range n], [[]]⟩ := by
  have h := partitionGo_replicate_F n 0 []
  unfold partitionDimTags
  rw [show List.replicate 1 ([] : List Nat) = [[]] from rfl, h, List.range_eq_range']
  simp

lemma range_reverse_head (n : Nat) (hn : 1 ≤ n) :
    (List.range n).reverse.head? = some (n - 1) := by
  obtain ⟨m, rfl⟩ : ∃ m, n = m + 1 := ⟨n - 1, by omega⟩
  rw [List.range_succ, List.reverse_append]
  simp

lemma range_head (n : Nat) (hn : 1 ≤ n) : (List.range n).head? = some 0 := by
  obtain ⟨m, rfl⟩ : ∃ m, n = m + 1 := ⟨n - 1, by omega⟩
  rw [List.range_succ_eq_map]
  rfl

/-! ### Parser facts for the round-trip claim -/

lemma listStartsWith_append : ∀ (p r : List Char), listStartsWith p (p ++ r) = true := by
  intro p
  induction p with
  | nil => intro r; rfl
  | cons c cs ih =>
      intro r
      simp [listStartsWith, ih r]

lemma symbolicParseChars_dash_none (cs : List Char) (h : '-' ∈ cs) :
    symbolicParseChars cs = none := by
  have h1 : cs.all Char.isDigit = false := by
    rw [List.all_eq_false]
    exact ⟨'-', h, by decide⟩
  have h2 : cs.all isIdentChar = false := by
    rw [List.all_eq_false]
    exact ⟨'-', h, by decide⟩
  simp [symbolicParseChars, h1, h2]

/-- Printing any fixed-stride tag appends "->N", and the parser hands the
whole remainder after "stride:" to the expression layer, which rejects
it, so parsing the printed form of a fixed-stride tag always fails. -/
lemma parse_fixed_stride_str (s : Expr) (ta : Nat) :
    parse_array_dim_tag ((FixedStrideArrayDimTag s ta).str)
      = .error (.parseFailure (String.mk (exprChars s ++ '-' :: '>' :: natChars ta))) := by
  have hdata : ((FixedStrideArrayDimTag s ta).str).data
      = "stride:".data ++ (exprChars s ++ '-' :: '>' :: natChars ta) :=
    List.append_assoc _ _ _
  have hstart : listStartsWith "stride:".data ((FixedStrideArrayDimTag s ta).str).data = true := by
    rw [hdata]
    exact listStartsWith_append _ _
  have hdrop : ((FixedStrideArrayDimTag s ta).str).data.drop 7
      = exprChars s ++ '-' :: '>' :: natChars ta := by
    rw [hdata, show (7 : Nat) = ("stride:".data).length from rfl, List.drop_left]
  have hparse : symbolicParseChars (exprChars s ++ '-' :: '>' :: natChars ta) = none :=
    symbolicParseChars_dash_none _ (by simp)
  simp only [parse_array_dim_tag, hstart, hdrop, hparse, if_true]

/-! ### Claim theorems -/

/-- C1: for shape (4,5), normalizing ["C","C"] yields fixed strides [5,1]
on target axis 0, and normalizing ["F","F"] yields [1,4] (the running
stride starts at 1 and is multiplied by each processed axis extent). -/
theorem claim_c1_scenario_cc_ff :
    convert_computed_to_fixed_dim_tags 1 (some [.const 4, .const 5])
        [ComputedStrideArrayDimTag "C" none 0, ComputedStrideArrayDimTag "C" none 0]
      = .ok (some [FixedStrideArrayDimTag (.const 5) 0, FixedStrideArrayDimTag (.const 1) 0])
    ∧ convert_computed_to_fixed_dim_tags 1 (some [.const 4, .const 5])
        [ComputedStrideArrayDimTag "F" none 0, ComputedStrideArrayDimTag "F" none 0]
      = .ok (some [FixedStrideArrayDimTag (.const 1) 0, FixedStrideArrayDimTag (.const 4) 0]) :=
  ⟨rfl, rfl⟩

/-- C2 (code bug): lines 255-259 compute div_ceil(s, pad_to) * s, not
div_ceil(s, pad_to) * pad_to, so the padded running stride is not rounded
up to a multiple of pad_to.  With shape (2,3,5) and tags
[C, C(pad=8), C] the axis that follows the padded axis in processing
order (axis 0) receives stride 30, which 8 does not divide (the
documented rounding would give 16). -/
theorem claim_c2_padding_not_multiple :
    convert_computed_to_fixed_dim_tags 1 (some [.const 2, .const 3, .const 5])
        [ComputedStrideArrayDimTag "C" none 0,
         ComputedStrideArrayDimTag "C" (some (.const 8)) 0,
         ComputedStrideArrayDimTag "C" none 0]
      = .ok (some [FixedStrideArrayDimTag (.const 30) 0,
                   FixedStrideArrayDimTag (.const 5) 0,
                   FixedStrideArrayDimTag (.const 1) 0])
    ∧ ¬ ((8 : Int) ∣ 30) := ⟨rfl, by decide⟩

/-- C3 (code bug): the separate-array branch of gen_decls (lines 637-640)
calls gen_decls with four of its five required positional arguments, so
planning declarations for tags ["sep", "stride:1"] with shape (3,10)
raises TypeError instead of yielding the three declarations a_s0, a_s1,
a_s2 that the claim (and the rest of the code) expects. -/
theorem claim_c3_sep_decl_type_error :
    decl_info ⟨"a", some (.scalar "f32"), some [.const 3, .const 10],
        some [SeparateArrayArrayDimTag, FixedStrideArrayDimTag (.const 1) 0], .zero⟩
        (.scalar "i32")
      = .error .typeErrorMissingArgument := rfl

/-- C4 counterexample: printing FixedStride(1, target 0) gives
"stride:1->0", and parsing that string fails (the expression layer is
handed "1->0"), so the round trip does not return the tag. -/
theorem claim_c4_roundtrip_cex :
    parse_array_dim_tag ((FixedStrideArrayDimTag (.const 1) 0).str)
      = .error (.parseFailure "1->0")
    ∧ parse_array_dim_tag ((FixedStrideArrayDimTag (.const 1) 0).str)
      ≠ .ok (FixedStrideArrayDimTag (.const 1) 0) := by
  refine ⟨rfl, ?_⟩
  intro h
  rw [show parse_array_dim_tag ((FixedStrideArrayDimTag (.const 1) 0).str)
      = .error (.parseFailure "1->0") from rfl] at h
  exact Except.noConfusion h

/-- C4 amended: the parse/print round trip holds for the sep and vec
tags, but fails for every fixed-stride tag, because __str__ appends
"->N" while the "stride:" parse branch hands the entire remainder to the
expression parser and never strips a target axis. -/
theorem claim_c4_roundtrip_amended :
    parse_array_dim_tag (ArrayDimImplementationTag.str SeparateArrayArrayDimTag)
      = .ok SeparateArrayArrayDimTag
    ∧ parse_array_dim_tag (ArrayDimImplementationTag.str VectorArrayDimTag)
      = .ok VectorArrayDimTag
    ∧ ∀ (s : Expr) (ta : Nat),
        parse_array_dim_tag ((FixedStrideArrayDimTag s ta).str)
          ≠ .ok (FixedStrideArrayDimTag s ta) := by
  refine ⟨rfl, rfl, ?_⟩
  intro s ta h
  rw [parse_fixed_stride_str] at h
  exact Except.noConfusion h

/-- C5 counterexample: with shape (4,5) and two C tags the FIRST-declared
axis receives stride 5, not the smallest stride (axis 1 gets 1); with two
F tags the LAST-declared axis receives 4, not the smallest (axis 0 gets
1).  The claim has the two orders swapped. -/
theorem claim_c5_order_cex :
    convert_computed_to_fixed_dim_tags 1 (some [.const 4, .const 5])
        [ComputedStrideArrayDimTag "C" none 0, ComputedStrideArrayDimTag "C" none 0]
      = .ok (some [FixedStrideArrayDimTag (.const 5) 0, FixedStrideArrayDimTag (.const 1) 0])
    ∧ ¬ ((5 : Int) ≤ 1)
    ∧ convert_computed_to_fixed_dim_tags 1 (some [.const 4, .const 5])
        [ComputedStrideArrayDimTag "F" none 0, ComputedStrideArrayDimTag "F" none 0]
      = .ok (some [FixedStrideArrayDimTag (.const 1) 0, FixedStrideArrayDimTag (.const 4) 0])
    ∧ ¬ ((4 : Int) ≤ 1) := ⟨rfl, by decide, rfl, by decide⟩

/-- C5 amended: among computed-stride tags of one target axis, with order
C the LAST-declared axis receives the smallest stride (it is processed
first, stride 1, and all assigned strides are at least 1); with order F
the FIRST-declared axis receives the smallest stride.  Stated for a
target axis carrying n same-order tags and positive integer extents. -/
theorem claim_c5_order_amended (n : Nat) (sh : List Expr) (hn : 1 ≤ n)
    (hlen : sh.length = n)
    (hsh : ∀ x, x < n → ∃ e : Int, sh.get? x = some (.const e) ∧ 1 ≤ e) :
    (∃ tags, convert_computed_to_fixed_dim_tags 1 (some sh)
        (List.replicate n (ComputedStrideArrayDimTag "C" none 0)) = .ok (some tags)
      ∧ tags.get? (n - 1) = some (FixedStrideArrayDimTag (.const 1) 0)
      ∧ (∀ k, k < n → ∃ d : Int,
          tags.get? k = some (FixedStrideArrayDimTag (.const d) 0) ∧ 1 ≤ d))
    ∧ (∃ tags, convert_computed_to_fixed_dim_tags 1 (some sh)
        (List.replicate n (ComputedStrideArrayDimTag "F" none 0)) = .ok (some tags)
      ∧ tags.get? 0 = some (FixedStrideArrayDimTag (.const 1) 0)
      ∧ (∀ k, k < n → ∃ d : Int,
          tags.get? k = some (FixedStrideArrayDimTag (.const d) 0) ∧ 1 ≤ d)) := by
  constructor
  · obtain ⟨nt2, c2, hw, _, _, hmemc, _, hhead⟩ :=
      computeStrides_spec (List.replicate n (ComputedStrideArrayDimTag "C" none 0)) sh
        (List.range n).reverse (List.replicate n (ComputedStrideArrayDimTag "C" none 0)) 1
        (le_refl 1)
        (List.nodup_reverse.mpr (List.nodup_range n))
        (fun x hx => by
          rw [List.length_replicate]
          exact List.mem_range.mp (List.mem_reverse.mp hx))
        (fun x hx => by
          have hxn : x < n := List.mem_range.mp (List.mem_reverse.mp hx)
          unfold padToOf
          rw [get?_replicate_lt _ n x hxn])
        (fun x hx => hsh x (List.mem_range.mp (List.mem_reverse.mp hx)))
    refine ⟨nt2, ?_, ?_, ?_⟩
    · unfold convert_computed_to_fixed_dim_tags
      rw [partition_replicate_C n]
      show convertAxes _ _ [((List.range n).reverse, [])] _ = _
      rw [convertAxes, if_neg (fun hh => hh.2 rfl), if_neg (fun hh => hh rfl), hw]
      rfl
    · exact hhead (n - 1) (range_reverse_head n hn)
    · intro k hk
      obtain ⟨d, hd, h1d⟩ := hmemc k (List.mem_reverse.mpr (List.mem_range.mpr hk))
      exact ⟨d, hd, h1d⟩
  · obtain ⟨nt2, c2, hw, _, _, hmemc, _, hhead⟩ :=
      computeStrides_spec (List.replicate n (ComputedStrideArrayDimTag "F" none 0)) sh
        (List.range n) (List.replicate n (ComputedStrideArrayDimTag "F" none 0)) 1
        (le_refl 1)
        (List.nodup_range n)
        (fun x hx => by
          rw [List.length_replicate]
          exact List.mem_range.mp hx)
        (fun x hx => by
          have hxn : x < n := List.mem_range.mp hx
          unfold padToOf
          rw [get?_replicate_lt _ n x hxn])
        (fun x hx => hsh x (List.mem_range.mp hx))
    refine ⟨nt2, ?_, ?_, ?_⟩
    · unfold convert_computed_to_fixed_dim_tags
      rw [partition_replicate_F n]
      show convertAxes _ _ [(List.range n, [])] _ = _
      rw [convertAxes, if_neg (fun hh => hh.2 rfl), if_neg (fun hh => hh rfl), hw]
      rfl
    · exact hhead 0 (range_head n hn)
    · intro k hk
      obtain ⟨d, hd, h1d⟩ := hmemc k (List.mem_range.mpr hk)
      exact ⟨d, hd, h1d⟩

/-- Witness for the amended C5 at n = 2, shape (4,5). -/
theorem claim_c5_order_amended_witness :
    (∃ tags, convert_computed_to_fixed_dim_tags 1 (some [Expr.const 4, Expr.const 5])
        (List.replicate 2 (ComputedStrideArrayDimTag "C" none 0)) = .ok (some tags)
      ∧ tags.get? (2 - 1) = some (FixedStrideArrayDimTag (.const 1) 0)
      ∧ (∀ k, k < 2 → ∃ d : Int,
          tags.get? k = some (FixedStrideArrayDimTag (.const d) 0) ∧ 1 ≤ d))
    ∧ (∃ tags, convert_computed_to_fixed_dim_tags 1 (some [Expr.const 4, Expr.const 5])
        (List.replicate 2 (ComputedStrideArrayDimTag "F" none 0)) = .ok (some tags)
      ∧ tags.get? 0 = some (FixedStrideArrayDimTag (.const 1) 0)
      ∧ (∀ k, k < 2 → ∃ d : Int,
          tags.get? k = some (FixedStrideArrayDimTag (.const d) 0) ∧ 1 ≤ d)) :=
  claim_c5_order_amended 2 [Expr.const 4, Expr.const 5] (by omega) rfl
    (by
      intro x hx
      interval_cases x
      · exact ⟨4, rfl, by norm_num⟩
      · exact ⟨5, rfl, by norm_num⟩)

/-- C6 counterexample: with shape (4, n) — the second extent symbolic —
and two C tags, the normalizer does not return the sentinel: it emits a
fixed-stride list whose axis-0 stride is the symbolic n. -/
theorem claim_c6_symbolic_cex :
    convert_computed_to_fixed_dim_tags 1 (some [.const 4, .var "n"])
        [ComputedStrideArrayDimTag "C" none 0, ComputedStrideArrayDimTag "C" none 0]
      = .ok (some [FixedStrideArrayDimTag (.var "n") 0, FixedStrideArrayDimTag (.const 1) 0])
    ∧ ((.ok (some [FixedStrideArrayDimTag (.var "n") 0, FixedStrideArrayDimTag (.const 1) 0])
        : Except ArrayError (Option (List ArrayDimImplementationTag))) ≠ .ok none) := by
  refine ⟨rfl, ?_⟩
  intro h
  rw [Except.ok.injEq] at h
  exact Option.noConfusion h

/-- C6 amended: the "not yet normalizable" sentinel is returned exactly
in the shape-None case — whenever shape is None and some target axis
carries computed-stride tags (and no fixed-stride tags, so no earlier
error fires), normalization returns the sentinel; a symbolic extent does
not defer, it is folded into the emitted strides. -/
theorem claim_c6_shape_none_amended (n : Nat) (dim_tags : List ArrayDimImplementationTag)
    (t j : Nat) (ord : String) (p : Option Expr)
    (hcomp : dim_tags.get? j = some (ComputedStrideArrayDimTag ord p t))
    (hta : ∀ dt ∈ dim_tags, tagTargetAxisLt n dt = true)
    (hord : ∀ dt ∈ dim_tags, orderValid dt = true)
    (hvec : dim_tags.countP isVec ≤ 1)
    (hnofix : ∀ u, u < n → ¬(0 < countFixedAt u dim_tags ∧ 0 < countComputedAt u dim_tags)) :
    convert_computed_to_fixed_dim_tags n none dim_tags = .ok none := by
  obtain ⟨st2, hpart, hclen, hflen, hfcnt, hccnt, _⟩ :=
    partitionDimTags_spec n dim_tags hta hord hvec
  have htlt : t < n := by
    have := hta _ (List.get?_mem hcomp)
    simpa [tagTargetAxisLt] using this
  have hcpos : 0 < countComputedAt t dim_tags := by
    rw [countComputedAt, List.countP_pos]
    exact ⟨_, List.get?_mem hcomp, by simp [isComputedAt]⟩
  have hf0 : countFixedAt t dim_tags = 0 := by
    by_contra hne
    exact hnofix t htlt ⟨Nat.pos_of_ne_zero hne, hcpos⟩
  have hcne : getNth st2.computed_stride_dim_tags t ≠ [] := by
    rw [← List.length_pos, hccnt t]
    exact hcpos
  have hfnil : getNth st2.fixed_stride_dim_tags t = [] := by
    rw [← List.length_eq_zero, hfcnt t]
    exact hf0
  have hpair := getNth_mem_zip st2.computed_stride_dim_tags st2.fixed_stride_dim_tags t
    (by rw [hclen]; exact htlt) (by rw [hflen]; exact htlt)
  have hno : ∀ pr ∈ st2.computed_stride_dim_tags.zip st2.fixed_stride_dim_tags,
      ¬(pr.1 ≠ [] ∧ pr.2 ≠ []) := by
    intro pr hpr hcontra
    obtain ⟨k, hk1, hk2, he1, he2⟩ := mem_zip_index _ _ pr hpr
    have hkn : k < n := by rw [← hclen]; exact hk1
    apply hnofix k hkn
    constructor
    · have h2 := hcontra.2
      rw [he2] at h2
      rw [← hfcnt k]
      exact List.length_pos.mpr h2
    · have h1 := hcontra.1
      rw [he1] at h1
      rw [← hccnt k]
      exact List.length_pos.mpr h1
  unfold convert_computed_to_fixed_dim_tags
  rw [hpart]
  exact convertAxes_shape_none dim_tags _ dim_tags ⟨_, hpair, hcne, hfnil⟩ hno

/-- Witness for the amended C6: one C tag, shape None, sentinel. -/
theorem claim_c6_shape_none_amended_witness :
    convert_computed_to_fixed_dim_tags 1 none [ComputedStrideArrayDimTag "C" none 0]
      = .ok none :=
  claim_c6_shape_none_amended 1 [ComputedStrideArrayDimTag "C" none 0] 0 0 "C" none rfl
    (by decide) (by decide) (by decide) (by decide)

/-- C7 counterexample: with shape None, get_access_info returns the
subscripts verbatim but sets vector_index to the integer 0, not the
absent-lane value None used everywhere else. -/
theorem claim_c7_shape_none_cex :
    get_access_info ⟨"a", none, none, some [FixedStrideArrayDimTag (.const 1) 0], .zero⟩
        [.var "i"] id
      = .ok ⟨none, some 0, [.var "i"]⟩
    ∧ (some (0 : Int) ≠ (none : Option Int)) := ⟨rfl, by decide⟩

/-- C7 amended: for every descriptor with shape None and any subscript
tuple, access planning skips all checks and returns the tuple verbatim,
with no array-suffix field and vector lane index 0 (not None). -/
theorem claim_c7_shape_none_amended (ary : ArrayBase) (index : List Expr)
    (evalExpr : Expr → Expr) (h : ary.shape = none) :
    get_access_info ary index evalExpr = .ok ⟨none, some 0, index⟩ := by
  unfold get_access_info
  rw [h]

/-- Witness for the amended C7. -/
theorem claim_c7_shape_none_amended_witness :
    get_access_info ⟨"b", none, none, none, .auto⟩ [.const 7] id
      = .ok ⟨none, some 0, [.const 7]⟩ :=
  claim_c7_shape_none_amended _ _ _ rfl

/-- C8 counterexample: with a computed tag padded to 0 on target axis 0
and a fixed/computed mix on target axis 1, the stride walk of axis 0
raises ZeroDivisionError in div_ceil (line 258) before the axis-1
conflict check of lines 228-236 is reached, so normalization does not
fail with the conflicting-stride error even though a target axis carries
both tag kinds and the shape is known. -/
theorem claim_c8_pad_zero_cex :
    convert_computed_to_fixed_dim_tags 2 (some [.const 2, .const 2, .const 2])
        [ComputedStrideArrayDimTag "C" (some (.const 0)) 0,
         FixedStrideArrayDimTag (.const 1) 1,
         ComputedStrideArrayDimTag "C" none 1]
      = .error .zeroDivisionError
    ∧ ((.error .zeroDivisionError
          : Except ArrayError (Option (List ArrayDimImplementationTag)))
        ≠ .error .valueErrorConflictingStrides) := by
  refine ⟨rfl, ?_⟩
  intro h
  rw [Except.error.injEq] at h
  exact ArrayError.noConfusion h

/-- C8 amended: whenever some target axis t below the target-axis count
carries both a fixed-stride tag and a computed-stride tag, normalization
fails with the conflicting-stride error, wherever the two tags sit in
the list — provided the walk of an earlier axis cannot raise first: the
shape is a compile-time integer shape covering every user axis, every
pad is absent or a nonzero integer (a pad of 0 raises ZeroDivisionError
in div_ceil during an earlier axis's walk), and the list is otherwise
well formed (valid orders, axes in range, at most one vector tag). -/
theorem claim_c8_conflicting_strides (n : Nat) (sh : List Expr)
    (dim_tags : List ArrayDimImplementationTag)
    (t i j : Nat) (s : Expr) (ord : String) (p : Option Expr)
    (hfix : dim_tags.get? i = some (FixedStrideArrayDimTag s t))
    (hcomp : dim_tags.get? j = some (ComputedStrideArrayDimTag ord p t))
    (hta : ∀ dt ∈ dim_tags, tagTargetAxisLt n dt = true)
    (hord : ∀ dt ∈ dim_tags, orderValid dt = true)
    (hvec : dim_tags.countP isVec ≤ 1)
    (hsh : dim_tags.length ≤ sh.length)
    (hshc : ∀ e ∈ sh, ∃ v : Int, e = .const v)
    (hpadok : ∀ dt ∈ dim_tags, padOk dt = true) :
    convert_computed_to_fixed_dim_tags n (some sh) dim_tags
      = .error .valueErrorConflictingStrides := by
  obtain ⟨st2, hpart, hclen, hflen, hfcnt, hccnt, hbnd⟩ :=
    partitionDimTags_spec n dim_tags hta hord hvec
  have htlt : t < n := by
    have := hta _ (List.get?_mem hfix)
    simpa [tagTargetAxisLt] using this
  have hcne : getNth st2.computed_stride_dim_tags t ≠ [] := by
    rw [← List.length_pos, hccnt t, countComputedAt, List.countP_pos]
    exact ⟨_, List.get?_mem hcomp, by simp [isComputedAt]⟩
  have hfne : getNth st2.fixed_stride_dim_tags t ≠ [] := by
    rw [← List.length_pos, hfcnt t, countFixedAt, List.countP_pos]
    exact ⟨_, List.get?_mem hfix, by simp [isFixedAt]⟩
  have hpair := getNth_mem_zip st2.computed_stride_dim_tags st2.fixed_stride_dim_tags t
    (by rw [hclen]; exact htlt) (by rw [hflen]; exact htlt)
  have hbnd' : ∀ pr ∈ st2.computed_stride_dim_tags.zip st2.fixed_stride_dim_tags,
      ∀ x ∈ pr.1, x < sh.length := by
    intro pr hpr x hx
    obtain ⟨a, b⟩ := pr
    obtain ⟨h1, _⟩ := List.of_mem_zip hpr
    have := hbnd a h1 x hx
    omega
  unfold convert_computed_to_fixed_dim_tags
  rw [hpart]
  exact convertAxes_conflict dim_tags sh hshc (padToOf_ok dim_tags hpadok) _ dim_tags
    ⟨_, hpair, hcne, hfne⟩ hbnd'

/-- Witness for the amended C8: a fixed and a computed tag on target
axis 0, integer shape (4,5), no pads. -/
theorem claim_c8_conflicting_strides_witness :
    convert_computed_to_fixed_dim_tags 1 (some [Expr.const 4, Expr.const 5])
        [FixedStrideArrayDimTag (Expr.const 1) 0, ComputedStrideArrayDimTag "C" none 0]
      = .error .valueErrorConflictingStrides :=
  claim_c8_conflicting_strides 1 [Expr.const 4, Expr.const 5]
    [FixedStrideArrayDimTag (Expr.const 1) 0, ComputedStrideArrayDimTag "C" none 0]
    0 0 1 (Expr.const 1) "C" none rfl rfl (by decide) (by decide) (by decide) (by decide)
    (by
      intro e he
      simp at he
      rcases he with h | h
      · exact ⟨4, h⟩
      · exact ⟨5, h⟩)
    (by decide)

/-- C9 (code bug): the contiguity check of lines 442-451 fires on target
axes {0,2}, but the raise formats self.name before any attribute is set,
so Python raises AttributeError, never the intended non-contiguous
ValueError; no input can produce the error the spec names. -/
theorem claim_c9_noncontiguous_attribute_error :
    find_num_target_axes [FixedStrideArrayDimTag (.const 1) 0,
        FixedStrideArrayDimTag (.const 10) 2]
      = .error (.attributeError "name")
    ∧ ∀ tags, find_num_target_axes tags ≠ .error .nonContiguousTargetAxes := by
  constructor
  · rfl
  · intro tags h
    simp only [find_num_target_axes] at h
    by_cases hc : strideTargetAxes tags = Finset.range (strideTargetAxes tags).card
    · rw [if_pos hc] at h
      exact Except.noConfusion h
    · rw [if_neg hc] at h
      rw [Except.error.injEq] at h
      exact ArrayError.noConfusion h

/-- C10: the computed-stride constructor uppercases the order and tests
it by Python substring containment in "CF": construction succeeds exactly
when the uppercased order is a substring of "CF" — so "" and "CF" are
accepted, while "x" is rejected. -/
theorem claim_c10_order_substring :
    (∀ ord pad ta, (∃ t, ComputedStrideArrayDimTag.init ord pad ta = .ok t)
        ↔ pyInStr (strUpper ord) "CF" = true)
    ∧ ComputedStrideArrayDimTag.init "" none 0 = .ok (ComputedStrideArrayDimTag "" none 0)
    ∧ ComputedStrideArrayDimTag.init "CF" none 0 = .ok (ComputedStrideArrayDimTag "CF" none 0)
    ∧ ComputedStrideArrayDimTag.init "x" none 0 = .error .valueErrorInvalidOrder := by
  refine ⟨?_, rfl, rfl, rfl⟩
  intro ord pad ta
  constructor
  · rintro ⟨t, ht⟩
    by_cases h : pyInStr (strUpper ord) "CF" = true
    · exact h
    · simp [ComputedStrideArrayDimTag.init, h] at ht
  · intro h
    refine ⟨ComputedStrideArrayDimTag (strUpper ord) pad ta, ?_⟩
    simp [ComputedStrideArrayDimTag.init, h]

end LoopyArray
